import Mathlib

/-
Verification of the Solo secret-reconstruction and key-verification flow of
electrum/gui/qt/seed_dialog.py (class SoloLayout), as a shallow embedding.

The collaborator functions verify_solo_check, reconstruct,
compute_privatekey_bitcoin, address_from_private_key and is_address live in
electrum.solo and electrum.bitcoin, which are outside the source excerpt;
they are abstracted as an arbitrary family of total functions (structure
Externals below), and theorems quantify over that family. The helper
is_base58, also external, is modelled from the spec because two claims
depend on its behaviour.
-/

namespace SoloVerify

/-- Characters of the base-58 alphabet used by Bitcoin encodings. -/
def base58_chars : List Char :=
  "123456789ABCDEFGHJKLMNPQRSTUVWXYZabcdefghijkmnopqrstuvwxyz".toList

/-- Modelled from the spec: is_base58 is imported from electrum.bitcoin, which
is not part of the source excerpt. Spec section 4.1 says share validation
accepts only base-58-alphabet strings, meaning every character of the string
belongs to the alphabet. -/
def is_base58 (s : String) : Bool :=
  s.toList.all (fun c => base58_chars.contains c)

/-- The external collaborators of SoloLayout, from electrum.solo and
electrum.bitcoin (not part of the source excerpt), abstracted as total
functions. Private keys and secret components are kept as strings, matching
the way SoloLayout passes them around. -/
structure Externals where
  verify_solo_check : String → Bool
  reconstruct : List (Nat × String) → Nat → String
  compute_privatekey_bitcoin : String → String → String
  address_from_private_key : String → String
  is_address : String → Bool

/-- One device row built by display_secrets: the combo-box current index
(0-based; unused in single-device mode) and the two secret line edits. -/
structure SoloEntry where
  cb : Nat
  secret1 : String
  secret2 : String
deriving Repr, DecidableEq

/-- The mutable state of SoloLayout that the verification pipeline reads and
writes: device count, device rows, the address line edit, and self.key. -/
structure SoloState where
  number_solo : Nat
  solos : List SoloEntry
  address : String
  key : Option String
deriving Repr, DecidableEq

/-- Python runtime errors the embedded code can raise. -/
inductive PyError where
  | nameError (name : String)
  | indexError
deriving Repr, DecidableEq

/-- Structured form of the validation errors produced by the first loop of
check_key (seed_dialog.py lines 277-287). soloErrorMsg renders the exact
message string the source builds. -/
inductive SoloError where
  | wrongLength (numsec solonum : String) (sizesec : Nat)
  | checksumFailed (numsec solonum : String)
deriving Repr, DecidableEq

/-- Discriminator: true exactly on wrong-length errors. -/
def errKind : SoloError → Bool
  | SoloError.wrongLength _ _ _ => true
  | SoloError.checksumFailed _ _ => false

/-- The exact user-facing message strings of seed_dialog.py lines 283 and 286. -/
def soloErrorMsg : SoloError → String
  | SoloError.wrongLength numsec solonum sizesec =>
      "secret " ++ numsec ++ solonum ++ " should be of size " ++ toString sizesec ++ " or 30"
  | SoloError.checksumFailed numsec solonum =>
      "secret " ++ numsec ++ solonum ++ " do not have a valid checksum, verify that you entered the secret correctly"

/-- The " of the solo %d" message suffix, present only with several devices
(lines 279-281). -/
def solonum_str (number_solo : Nat) (e : SoloEntry) : String :=
  if number_solo > 1 then " of the solo " ++ toString (e.cb + 1) else ""

/-- The two tests check_key applies to one secret component (lines 282-287):
a length test (bare size or 30), then a checksum test for length 30. -/
def check_component (E : Externals) (solonum : String) (sec : String)
    (numsec : String) (sizesec : Nat) : Option SoloError :=
  if sec.length ≠ sizesec ∧ sec.length ≠ 30 then
    some (SoloError.wrongLength numsec solonum sizesec)
  else if sec.length = 30 ∧ E.verify_solo_check sec = false then
    some (SoloError.checksumFailed numsec solonum)
  else
    none

/-- The inner loop body of check_key: component 1 (bare size 28) then
component 2 (bare size 14), first failure wins. -/
def check_entry (E : Externals) (number_solo : Nat) (e : SoloEntry) : Option SoloError :=
  match check_component E (solonum_str number_solo e) e.secret1 "1" 28 with
  | some err => some err
  | none => check_component E (solonum_str number_solo e) e.secret2 "2" 14

/-- The outer loop of check_key over all device rows, returning the first
error encountered, if any. -/
def validate_solos (E : Externals) (number_solo : Nat) : List SoloEntry → Option SoloError
  | [] => none
  | e :: rest =>
    match check_entry E number_solo e with
    | some err => some err
    | none => validate_solos E number_solo rest

/-- Lines 368-371 of get_key: derive the private key, store it in self.key,
then compare the address derived from the key with the entered address. -/
def finishKey (E : Externals) (st : SoloState) (secret1 secret2 : String) :
    Except PyError (SoloState × Option String) :=
  let key := E.compute_privatekey_bitcoin secret1 secret2
  let st2 := { st with key := some key }
  if E.address_from_private_key key = st.address then
    Except.ok (st2, some key)
  else
    Except.ok (st2, none)

/-- Lines 349-353 (and 355-359) of get_key: in single-device mode a
30-character secret is checksum-checked and truncated to its first 29
characters. The failing branch calls wrong_secret, a name defined nowhere in
the module, so Python raises a NameError there. -/
def strip_check (E : Externals) (sec : String) : Except PyError String :=
  if sec.length = 30 then
    if E.verify_solo_check sec = false then
      Except.error (PyError.nameError "wrong_secret")
    else
      Except.ok (sec.take 29)
  else
    Except.ok sec

/-- The (currentIndex + 1, secret) pairs built for reconstruct in
multi-device mode (lines 361-365); the secret text is passed verbatim. -/
def solo_shares (select : SoloEntry → String) (solos : List SoloEntry) :
    List (Nat × String) :=
  solos.map (fun s => (s.cb + 1, select s))

/-- SoloLayout.get_key (lines 344-371). The returned state carries the
updated self.key field; the Option String is the Python return value. -/
def get_key (E : Externals) (st : SoloState) : Except PyError (SoloState × Option String) :=
  if st.number_solo = 1 then
    match st.solos with
    | [] => Except.error PyError.indexError
    | s0 :: _ =>
      match strip_check E s0.secret1 with
      | Except.error e => Except.error e
      | Except.ok secret1 =>
        match strip_check E s0.secret2 with
        | Except.error e => Except.error e
        | Except.ok secret2 => finishKey E st secret1 secret2
  else
    finishKey E st
      (E.reconstruct (solo_shares SoloEntry.secret1 st.solos) 28)
      (E.reconstruct (solo_shares SoloEntry.secret2 st.solos) 14)

/-- What one run of check_key signals back to the dialog. -/
inductive CheckOutcome where
  | showError (msg : String)
  | accept
  | raised (e : PyError)
deriving Repr, DecidableEq

/-- Message of line 289. -/
def invalidAddressMsg : String := "The address is not valid"

/-- Message of line 292. -/
def mismatchMsg : String :=
  "The recomputed private key do not correspond to the address you entered, please verify that secret codes are correct"

/-- SoloLayout.check_key (lines 276-295): validate every secret of every
device, then the address format, then derive the key and compare; accept
stands for reset_buttons followed by loop.exit(2). -/
def check_key (E : Externals) (st : SoloState) : CheckOutcome × SoloState :=
  match validate_solos E st.number_solo st.solos with
  | some err => (CheckOutcome.showError (soloErrorMsg err), st)
  | none =>
    if E.is_address st.address = false then
      (CheckOutcome.showError invalidAddressMsg, st)
    else
      match get_key E st with
      | Except.error e => (CheckOutcome.raised e, st)
      | Except.ok (st2, none) => (CheckOutcome.showError mismatchMsg, st2)
      | Except.ok (st2, some _) => (CheckOutcome.accept, st2)

/-- SoloLayout.on_edit (lines 297-308): the boolean b accumulated over the
loop, with indexes the accumulator of combo indices already seen. -/
def on_edit_loop (number_solo : Nat) : List SoloEntry → List Nat → Bool → Bool
  | [], _, b => b
  | s :: rest, indexes, b =>
    if number_solo > 1 then
      on_edit_loop number_solo rest (indexes ++ [s.cb])
        (b && is_base58 s.secret1 && is_base58 s.secret2 && !(indexes.contains s.cb))
    else
      on_edit_loop number_solo rest indexes
        (b && is_base58 s.secret1 && is_base58 s.secret2)

/-- The enabled flag on_edit computes for the next button. -/
def on_edit_b (st : SoloState) : Bool :=
  on_edit_loop st.number_solo st.solos [] true

/-- Dialog-level state: the layout state plus the next-button enabled flag. -/
structure GuiState where
  st : SoloState
  enabled : Bool
deriving Repr, DecidableEq

/-- User events on the dialog widgets. -/
inductive Event where
  | setSecret1 (i : Nat) (v : String)
  | setSecret2 (i : Nat) (v : String)
  | setIndex (i : Nat) (v : Nat)
  | setAddress (v : String)
  | clickNext
deriving Repr, DecidableEq

/-- Replace the element at position i, when it exists. -/
def modifyIdx (i : Nat) (f : SoloEntry → SoloEntry) : List SoloEntry → List SoloEntry
  | [] => []
  | x :: xs =>
    match i with
    | 0 => f x :: xs
    | j + 1 => x :: modifyIdx j f xs

/-- The field mutation a widget event performs (clickNext mutates nothing by
itself). -/
def apply_event (st : SoloState) : Event → SoloState
  | Event.setSecret1 i v =>
      { st with solos := modifyIdx i (fun s => { s with secret1 := v }) st.solos }
  | Event.setSecret2 i v =>
      { st with solos := modifyIdx i (fun s => { s with secret2 := v }) st.solos }
  | Event.setIndex i v =>
      { st with solos := modifyIdx i (fun s => { s with cb := v }) st.solos }
  | Event.setAddress v => { st with address := v }
  | Event.clickNext => st

/-- One dialog step. Every widget change fires on_edit, which recomputes the
next-button enabled flag (lines 249, 321, 334-335 connect the signals);
clicking next runs check_key only when the button is enabled. -/
def gui_step (E : Externals) (g : GuiState) : Event → GuiState
  | Event.clickNext =>
    if g.enabled then { g with st := (check_key E g.st).2 } else g
  | e =>
    let st2 := apply_event g.st e
    { st := st2, enabled := on_edit_b st2 }

/-- The dialog state built by __init__ and display_secrets: number_solo
device rows with combo boxes preset to 0, 1, ..., empty line edits, the next
button disabled (line 257). -/
def init_gui (number_solo : Nat) : GuiState :=
  { st := { number_solo := number_solo
          , solos := (List.range number_solo).map
              (fun i => { cb := i, secret1 := "", secret2 := "" })
          , address := ""
          , key := none }
  , enabled := false }

/-- Run a sequence of user events from the initial dialog state. -/
def run_events (E : Externals) (number_solo : Nat) (events : List Event) : GuiState :=
  events.foldl (gui_step E) (init_gui number_solo)

/-! ### Basic lemmas about finishKey and get_key -/

lemma finishKey_ok (E : Externals) (st : SoloState) (s1 s2 : String)
    (st2 : SoloState) (r : Option String)
    (h : finishKey E st s1 s2 = Except.ok (st2, r)) :
    st2 = { st with key := some (E.compute_privatekey_bitcoin s1 s2) } ∧
    (r = some (E.compute_privatekey_bitcoin s1 s2) ↔
      E.address_from_private_key (E.compute_privatekey_bitcoin s1 s2) = st.address) ∧
    (E.address_from_private_key (E.compute_privatekey_bitcoin s1 s2) ≠ st.address →
      r = none) ∧
    (r = none ∨ r = some (E.compute_privatekey_bitcoin s1 s2)) := by
  simp only [finishKey] at h
  split at h
  case isTrue hc =>
    simp only [Except.ok.injEq, Prod.mk.injEq] at h
    obtain ⟨h1, h2⟩ := h
    exact ⟨h1.symm, by simp [← h2, hc], fun hne => absurd hc hne, Or.inr h2.symm⟩
  case isFalse hc =>
    simp only [Except.ok.injEq, Prod.mk.injEq] at h
    obtain ⟨h1, h2⟩ := h
    refine ⟨h1.symm, ?_, fun _ => h2.symm, Or.inl h2.symm⟩
    constructor
    · intro hr; rw [← h2] at hr; simp at hr
    · intro hr; exact absurd hr hc

lemma get_key_ok_finish (E : Externals) (st st2 : SoloState) (r : Option String)
    (h : get_key E st = Except.ok (st2, r)) :
    ∃ s1 s2, finishKey E st s1 s2 = Except.ok (st2, r) := by
  unfold get_key at h
  split at h
  · split at h
    · exact absurd h (by simp)
    · split at h
      · exact absurd h (by simp)
      · split at h
        · exact absurd h (by simp)
        · exact ⟨_, _, h⟩
  · exact ⟨_, _, h⟩

lemma get_key_ok_shape (E : Externals) (st st2 : SoloState) (r : Option String)
    (h : get_key E st = Except.ok (st2, r)) :
    ∃ k, st2 = { st with key := some k } ∧
      (r = some k ↔ E.address_from_private_key k = st.address) ∧
      (E.address_from_private_key k ≠ st.address → r = none) ∧
      (r = none ∨ r = some k) := by
  obtain ⟨s1, s2, hf⟩ := get_key_ok_finish E st st2 r h
  obtain ⟨h1, h2, h3, h4⟩ := finishKey_ok E st s1 s2 st2 r hf
  exact ⟨E.compute_privatekey_bitcoin s1 s2, h1, h2, h3, h4⟩

/-! ### Concrete instances used by witnesses and counterexamples -/

/-- A simple concrete instantiation of the external collaborators. -/
def Eid : Externals :=
  { verify_solo_check := fun _ => true
  , reconstruct := fun shares _ => String.join (shares.map Prod.snd)
  , compute_privatekey_bitcoin := fun a b => a ++ "/" ++ b
  , address_from_private_key := fun k => "addr:" ++ k
  , is_address := fun _ => true }

/-- Single-device state whose entered address matches the derived key. -/
def stW1 : SoloState :=
  { number_solo := 1, solos := [⟨0, "x", "y"⟩], address := "addr:x/y", key := none }

/-- The state stW1 after get_key stored the derived key. -/
def stW1r : SoloState := { stW1 with key := some "x/y" }

/-! ### C1 -/

/-- C1: whenever get_key completes without raising, the derived key is
returned exactly when the address derived from it equals the entered address
string (Lean string equality, i.e. exact character-for-character equality),
and any difference makes get_key return none; in that case check_key, after
the earlier validations passed, reports the address-mismatch message. -/
theorem c1_address_exact_match (E : Externals) (st st2 : SoloState) (r : Option String)
    (h : get_key E st = Except.ok (st2, r)) :
    ∃ k, st2.key = some k ∧
      (r = some k ↔ E.address_from_private_key k = st.address) ∧
      (E.address_from_private_key k ≠ st.address → r = none) ∧
      (validate_solos E st.number_solo st.solos = none →
        E.is_address st.address = true → r = none →
        check_key E st = (CheckOutcome.showError mismatchMsg, st2)) := by
  obtain ⟨k, hst, hiff, hnone, _⟩ := get_key_ok_shape E st st2 r h
  refine ⟨k, by rw [hst], hiff, hnone, ?_⟩
  intro hv ha hr
  subst hr
  simp [check_key, hv, ha, h]

/-- Witness for c1_address_exact_match at a concrete accepting input. -/
theorem c1_witness :
    get_key Eid stW1 = Except.ok (stW1r, some "x/y") ∧
    (∃ k, stW1r.key = some k ∧
      ((some "x/y" : Option String) = some k ↔
        Eid.address_from_private_key k = stW1.address) ∧
      (Eid.address_from_private_key k ≠ stW1.address →
        (some "x/y" : Option String) = none) ∧
      (validate_solos Eid stW1.number_solo stW1.solos = none →
        Eid.is_address stW1.address = true → (some "x/y" : Option String) = none →
        check_key Eid stW1 = (CheckOutcome.showError mismatchMsg, stW1r))) :=
  ⟨rfl, c1_address_exact_match Eid stW1 stW1r (some "x/y") rfl⟩

/-! ### C2 -/

/-- Externals whose checksum verification always fails. -/
def c2E : Externals :=
  { verify_solo_check := fun _ => false
  , reconstruct := fun _ _ => ""
  , compute_privatekey_bitcoin := fun _ _ => ""
  , address_from_private_key := fun _ => ""
  , is_address := fun _ => true }

/-- A 30-character secret string. -/
def c2Secret30 : String := "123456789A123456789A123456789A"

/-- Single-device state whose first secret has length 30. -/
def c2State : SoloState :=
  { number_solo := 1, solos := [⟨0, c2Secret30, "x"⟩], address := "", key := none }

/-- C2 (code bug): in single-device mode, on a 30-character secret whose
checksum verification fails, get_key does not return None; it raises a
NameError, because the failure branch at seed_dialog.py line 351 calls
wrong_secret, a name defined nowhere in the module, before the return None
statement can execute. -/
theorem c2_get_key_raises :
    c2Secret30.length = 30 ∧
    c2E.verify_solo_check c2Secret30 = false ∧
    get_key c2E c2State = Except.error (PyError.nameError "wrong_secret") :=
  ⟨by decide, rfl, rfl⟩

/-! ### C4 -/

/-- Externals for the C4 counterexample. -/
def c4E : Externals :=
  { verify_solo_check := fun _ => true
  , reconstruct := fun _ _ => ""
  , compute_privatekey_bitcoin := fun a b => a ++ b
  , address_from_private_key := fun k => "addr" ++ k
  , is_address := fun _ => true }

/-- Single-device state for the C4 counterexample. -/
def c4State : SoloState :=
  { number_solo := 1, solos := [⟨0, "a", "b"⟩], address := "addrab", key := none }

/-- c4State after get_key ran: the key field holds the derived key. -/
def c4StateR : SoloState := { c4State with key := some "ab" }

/-- C4 counterexample: after get_key returns (here an accepting run), the
layout state still holds the derived private key in its key field (self.key,
assigned at seed_dialog.py line 368 and never cleared), so the claim that no
field retains the private key once get_key returns is false. -/
theorem c4_counterexample :
    get_key c4E c4State = Except.ok (c4StateR, some "ab") ∧
    c4StateR.key = some "ab" ∧ (some "ab" : Option String) ≠ none :=
  ⟨rfl, rfl, by simp⟩

/-- C4 amended: whenever get_key returns without raising, accepted or
rejected, the layout retains the derived private key in its key field; it is
not discarded. -/
theorem c4_key_retained_amended (E : Externals) (st st2 : SoloState) (r : Option String)
    (h : get_key E st = Except.ok (st2, r)) :
    ∃ k, st2.key = some k ∧ st2.key ≠ none ∧ (∀ k2, r = some k2 → k2 = k) := by
  obtain ⟨k, hst, _, _, hor⟩ := get_key_ok_shape E st st2 r h
  subst hst
  refine ⟨k, rfl, by simp, ?_⟩
  intro k2 hk2
  rcases hor with hn | hs
  · rw [hn] at hk2; simp at hk2
  · rw [hs] at hk2; exact (Option.some.injEq k2 k ▸ hk2.symm)

/-- Witness for c4_key_retained_amended at a concrete input. -/
theorem c4_witness :
    get_key c4E c4State = Except.ok (c4StateR, some "ab") ∧
    (∃ k, c4StateR.key = some k ∧ c4StateR.key ≠ none ∧
      (∀ k2, (some "ab" : Option String) = some k2 → k2 = k)) :=
  ⟨rfl, c4_key_retained_amended c4E c4State c4StateR (some "ab") rfl⟩

/-! ### C5 -/

/-- C5: for any one secret component, the validation loop of check_key
produces a wrong-length error (whose message names the two expected lengths,
the bare size and 30) exactly when the component length differs from both
its bare size and 30; any allowed length passes the length test; and the
accept/reject kind of the outcome does not depend on the message suffix
solonum, that suffix being the only part of the test that differs between
single-device and multi-device mode. Moreover at check_key level, a first
device whose component 1 has a disallowed length makes check_key show
exactly the wrong-length message. -/
theorem c5_wrong_length (E : Externals) (solonum solonum2 sec numsec : String) (sizesec : Nat) :
    (check_component E solonum sec numsec sizesec
        = some (SoloError.wrongLength numsec solonum sizesec)
      ↔ (sec.length ≠ sizesec ∧ sec.length ≠ 30)) ∧
    ((sec.length = sizesec ∨ sec.length = 30) →
      ∀ err, check_component E solonum sec numsec sizesec = some err →
        errKind err = false) ∧
    ((check_component E solonum sec numsec sizesec).map errKind
      = (check_component E solonum2 sec numsec sizesec).map errKind) ∧
    (∀ st e rest, st.solos = e :: rest →
      e.secret1.length ≠ 28 → e.secret1.length ≠ 30 →
      check_key E st = (CheckOutcome.showError
        (soloErrorMsg (SoloError.wrongLength "1" (solonum_str st.number_solo e) 28)), st)) := by
  refine ⟨?_, ?_, ?_, ?_⟩
  · by_cases hl : sec.length ≠ sizesec ∧ sec.length ≠ 30
    · simp [check_component, hl]
    · simp only [check_component, if_neg hl]
      split
      · simp [hl]
      · simp [hl]
  · intro hok err herr
    have hl : ¬(sec.length ≠ sizesec ∧ sec.length ≠ 30) := by
      rcases hok with h | h <;> simp [h]
    simp only [check_component, if_neg hl] at herr
    split at herr
    · cases herr; rfl
    · cases herr
  · by_cases hl : sec.length ≠ sizesec ∧ sec.length ≠ 30
    · simp [check_component, hl, errKind]
    · simp only [check_component, if_neg hl]
      split
      · simp [errKind]
      · simp
  · intro st e rest hs h1 h2
    have hc : check_component E (solonum_str st.number_solo e) e.secret1 "1" 28
        = some (SoloError.wrongLength "1" (solonum_str st.number_solo e) 28) := by
      simp [check_component, h1, h2]
    have he : check_entry E st.number_solo e
        = some (SoloError.wrongLength "1" (solonum_str st.number_solo e) 28) := by
      simp [check_entry, hc]
    have hv : validate_solos E st.number_solo st.solos
        = some (SoloError.wrongLength "1" (solonum_str st.number_solo e) 28) := by
      rw [hs]; simp [validate_solos, he]
    simp [check_key, hv]

/-- Witness for c5_wrong_length: a 3-character component 1 is rejected as
wrong length. -/
theorem c5_witness :
    check_component Eid "" "abc" "1" 28
      = some (SoloError.wrongLength "1" "" 28) :=
  (c5_wrong_length Eid "" "zz" "abc" "1" 28).1.mpr (by decide)

/-! ### C6 -/

/-- C6: a 30-character component is rejected by the validation loop exactly
when verify_solo_check fails on it; a bare-length component passes with no
error and the outcome does not consult the checksum collaborator at all
(identical for every choice of externals); and in single-device mode get_key
passes bare-length secrets to key derivation completely unchanged — whether
the other secret is bare as well or is a checksummed 30-character share. -/
theorem c6_checksum_gate (E E2 : Externals) (solonum sec numsec : String) (sizesec : Nat) :
    (sec.length = 30 →
      (check_component E solonum sec numsec sizesec
          = some (SoloError.checksumFailed numsec solonum)
        ↔ E.verify_solo_check sec = false)) ∧
    (sec.length = sizesec → sizesec ≠ 30 →
      check_component E solonum sec numsec sizesec = none ∧
      check_component E solonum sec numsec sizesec
        = check_component E2 solonum sec numsec sizesec) ∧
    (∀ st s0 rest, st.number_solo = 1 → st.solos = s0 :: rest →
      s0.secret1.length ≠ 30 → s0.secret2.length ≠ 30 →
      get_key E st = finishKey E st s0.secret1 s0.secret2) ∧
    (∀ st s0 rest, st.number_solo = 1 → st.solos = s0 :: rest →
      s0.secret1.length ≠ 30 →
      s0.secret2.length = 30 → E.verify_solo_check s0.secret2 = true →
      get_key E st = finishKey E st s0.secret1 (s0.secret2.take 29)) ∧
    (∀ st s0 rest, st.number_solo = 1 → st.solos = s0 :: rest →
      s0.secret1.length = 30 → E.verify_solo_check s0.secret1 = true →
      s0.secret2.length ≠ 30 →
      get_key E st = finishKey E st (s0.secret1.take 29) s0.secret2) := by
  refine ⟨?_, ?_, ?_, ?_, ?_⟩
  · intro h30
    have hl : ¬(sec.length ≠ sizesec ∧ sec.length ≠ 30) := by simp [h30]
    by_cases hv : E.verify_solo_check sec = false
    · simp [check_component, hl, h30, hv]
    · simp [check_component, hl, h30, hv]
  · intro hlen h30
    constructor
    · simp [check_component, hlen, h30]
    · simp [check_component, hlen, h30]
  · intro st s0 rest hn hs h1 h2
    simp [get_key, hn, hs, strip_check, h1, h2]
  · intro st s0 rest hn hs h1 h2 hv2
    simp [get_key, hn, hs, strip_check, h1, h2, hv2]
  · intro st s0 rest hn hs h1 hv1 h2
    simp [get_key, hn, hs, strip_check, h1, h2, hv1]

/-- Witness for c6_checksum_gate: a bare 28-character component passes with
no checksum consultation. -/
theorem c6_witness :
    check_component Eid "" "1111111111111111111111111111" "1" 28 = none :=
  ((c6_checksum_gate Eid c2E "" "1111111111111111111111111111" "1" 28).2.1
    (by decide) (by decide)).1

/-! ### Lemmas: what passing the validation loop implies -/

lemma check_component_none (E : Externals) (solonum sec numsec : String) (sizesec : Nat)
    (h : check_component E solonum sec numsec sizesec = none) :
    (sec.length = sizesec ∨ sec.length = 30) ∧
    (sec.length = 30 → E.verify_solo_check sec = true) := by
  unfold check_component at h
  split at h
  · simp at h
  next h1 =>
    split at h
    · simp at h
    next h2 =>
      push_neg at h1 h2
      constructor
      · by_cases hl : sec.length = sizesec
        · exact Or.inl hl
        · exact Or.inr (h1 hl)
      · intro h30
        cases hb : E.verify_solo_check sec
        · exact absurd hb (h2 h30)
        · rfl

lemma check_entry_none (E : Externals) (n : Nat) (e : SoloEntry)
    (h : check_entry E n e = none) :
    check_component E (solonum_str n e) e.secret1 "1" 28 = none ∧
    check_component E (solonum_str n e) e.secret2 "2" 14 = none := by
  unfold check_entry at h
  split at h
  next err heq => simp at h
  next heq => exact ⟨heq, h⟩

lemma validate_solos_none (E : Externals) (n : Nat) :
    ∀ l, validate_solos E n l = none → ∀ e ∈ l, check_entry E n e = none := by
  intro l
  induction l with
  | nil => intro _ e he; simp at he
  | cons a as ih =>
    intro h e he
    unfold validate_solos at h
    split at h
    next err heq => simp at h
    next heq =>
      rcases List.mem_cons.mp he with rfl | hmem
      · exact heq
      · exact ih h e hmem

/-! ### C3 -/

/-- Externals for the C3 counterexample: every checksum verifies. -/
def c3E : Externals :=
  { verify_solo_check := fun _ => true
  , reconstruct := fun shares _ => String.join (shares.map Prod.snd)
  , compute_privatekey_bitcoin := fun a b => a ++ ";" ++ b
  , address_from_private_key := fun k => k
  , is_address := fun _ => true }

/-- A 30-character share string. -/
def s30A : String := "123456789A123456789B123456789C"

/-- Another 30-character share string. -/
def s30B : String := "123456789D123456789E123456789F"

/-- Two-device state whose component-1 shares are 30 characters long. -/
def c3State : SoloState :=
  { number_solo := 2
  , solos := [⟨0, s30A, "11111111111111"⟩, ⟨1, s30B, "22222222222222"⟩]
  , address := ""
  , key := none }

/-- C3 counterexample: in multi-device mode, 30-character shares whose
checksum verification succeeds are handed to reconstruct with all 30
characters intact (length 30, not 29): get_key builds the share list
directly from the raw line-edit texts (seed_dialog.py lines 361-365) with no
truncation. -/
theorem c3_counterexample :
    c3State.number_solo = 2 ∧
    s30A.length = 30 ∧ s30B.length = 30 ∧
    c3E.verify_solo_check s30A = true ∧ c3E.verify_solo_check s30B = true ∧
    validate_solos c3E c3State.number_solo c3State.solos = none ∧
    get_key c3E c3State = finishKey c3E c3State
      (c3E.reconstruct (solo_shares SoloEntry.secret1 c3State.solos) 28)
      (c3E.reconstruct (solo_shares SoloEntry.secret2 c3State.solos) 14) ∧
    solo_shares SoloEntry.secret1 c3State.solos = [(1, s30A), (2, s30B)] ∧
    (solo_shares SoloEntry.secret1 c3State.solos).map (fun p => p.snd.length)
      = [30, 30] :=
  ⟨rfl, by decide, by decide, rfl, rfl, by decide, rfl, rfl, by decide⟩

/-- C3 amended: a 30-character share that passes checksum verification is
truncated to its first 29 characters only in single-device mode, before key
derivation — independently per share, whatever the form of the other share
(bare or 30-character); in multi-device mode the full share string is
passed to reconstruct unmodified. -/
theorem c3_truncation_amended (E : Externals) (st : SoloState)
    (s0 : SoloEntry) (rest : List SoloEntry) (h : st.solos = s0 :: rest) :
    (∀ sec : String, sec.length = 30 → E.verify_solo_check sec = true →
      strip_check E sec = Except.ok (sec.take 29)) ∧
    (st.number_solo = 1 →
      s0.secret1.length = 30 → E.verify_solo_check s0.secret1 = true →
      s0.secret2.length ≠ 30 →
      get_key E st = finishKey E st (s0.secret1.take 29) s0.secret2) ∧
    (st.number_solo = 1 →
      s0.secret1.length ≠ 30 →
      s0.secret2.length = 30 → E.verify_solo_check s0.secret2 = true →
      get_key E st = finishKey E st s0.secret1 (s0.secret2.take 29)) ∧
    (st.number_solo = 1 →
      s0.secret1.length = 30 → E.verify_solo_check s0.secret1 = true →
      s0.secret2.length = 30 → E.verify_solo_check s0.secret2 = true →
      get_key E st = finishKey E st (s0.secret1.take 29) (s0.secret2.take 29)) ∧
    (st.number_solo ≠ 1 →
      get_key E st = finishKey E st
        (E.reconstruct (st.solos.map (fun s => (s.cb + 1, s.secret1))) 28)
        (E.reconstruct (st.solos.map (fun s => (s.cb + 1, s.secret2))) 14)) := by
  refine ⟨?_, ?_, ?_, ?_, ?_⟩
  · intro sec h30 hv
    simp [strip_check, h30, hv]
  · intro hn h1 hv1 h2
    simp [get_key, hn, h, strip_check, h1, h2, hv1]
  · intro hn h1 h2 hv2
    simp [get_key, hn, h, strip_check, h1, h2, hv2]
  · intro hn h1 hv1 h2 hv2
    simp [get_key, hn, h, strip_check, h1, h2, hv1, hv2]
  · intro hn
    simp [get_key, hn, solo_shares]

/-- Witness for c3_truncation_amended: a single-device mixed state, one
checksummed 30-character secret alongside a bare 14-character one; the
30-character share is truncated before derivation and the bare one is not. -/
theorem c3_witness :
    get_key Eid
      { number_solo := 1, solos := [⟨0, s30A, "11111111111111"⟩], address := "", key := none }
      = finishKey Eid
          { number_solo := 1, solos := [⟨0, s30A, "11111111111111"⟩], address := "", key := none }
          (s30A.take 29) "11111111111111" :=
  (c3_truncation_amended Eid
      { number_solo := 1, solos := [⟨0, s30A, "11111111111111"⟩], address := "", key := none }
      ⟨0, s30A, "11111111111111"⟩ [] rfl).2.1 rfl (by decide) rfl (by decide)

/-! ### C8 -/

/-- Externals for the C8 counterexample: reconstruct returns the expected
length rendered as a string, so the derived key records both calls. -/
def c8E : Externals :=
  { verify_solo_check := fun _ => true
  , reconstruct := fun _ n => toString n
  , compute_privatekey_bitcoin := fun a b => a ++ b
  , address_from_private_key := fun k => k
  , is_address := fun _ => true }

/-- Two-device state whose shares all have bare lengths (28 and 14). -/
def c8State : SoloState :=
  { number_solo := 2
  , solos := [⟨0, "1111111111111111111111111111", "11111111111111"⟩,
              ⟨1, "2222222222222222222222222222", "22222222222222"⟩]
  , address := "2814"
  , key := none }

/-- C8 counterexample: a fully accepted multi-device run in which every
share that reaches reconstruct is a bare-length share of 28 characters
(component 1) — not a validated 29-character checksummed form. check_key
passes bare lengths through in multi-device mode and get_key never
truncates. -/
theorem c8_counterexample :
    c8State.number_solo = 2 ∧
    validate_solos c8E c8State.number_solo c8State.solos = none ∧
    check_key c8E c8State = (CheckOutcome.accept, { c8State with key := some "2814" }) ∧
    get_key c8E c8State = finishKey c8E c8State
      (c8E.reconstruct (solo_shares SoloEntry.secret1 c8State.solos) 28)
      (c8E.reconstruct (solo_shares SoloEntry.secret2 c8State.solos) 14) ∧
    (solo_shares SoloEntry.secret1 c8State.solos).map (fun p => p.snd.length)
      = [28, 28] :=
  ⟨rfl, by decide, by decide, rfl, by decide⟩

/-- C8 amended: in multi-device mode, after the validation loop passes, each
share handed to reconstruct is the raw entered string, of bare length (28
for component 1, 14 for component 2) or of length 30 with a verified
checksum; no share is truncated to 29 characters. -/
theorem c8_shares_amended (E : Externals) (st : SoloState)
    (hn : st.number_solo ≠ 1)
    (hv : validate_solos E st.number_solo st.solos = none) :
    get_key E st = finishKey E st
      (E.reconstruct (solo_shares SoloEntry.secret1 st.solos) 28)
      (E.reconstruct (solo_shares SoloEntry.secret2 st.solos) 14) ∧
    (∀ p ∈ solo_shares SoloEntry.secret1 st.solos,
      p.snd.length = 28 ∨ (p.snd.length = 30 ∧ E.verify_solo_check p.snd = true)) ∧
    (∀ p ∈ solo_shares SoloEntry.secret2 st.solos,
      p.snd.length = 14 ∨ (p.snd.length = 30 ∧ E.verify_solo_check p.snd = true)) := by
  refine ⟨by simp [get_key, hn], ?_, ?_⟩
  · intro p hp
    simp only [solo_shares, List.mem_map] at hp
    obtain ⟨s, hs, hps⟩ := hp
    subst hps
    have hce := validate_solos_none E st.number_solo st.solos hv s hs
    have hcc := check_component_none E _ s.secret1 "1" 28
      (check_entry_none E st.number_solo s hce).1
    rcases hcc.1 with h28 | h30
    · exact Or.inl h28
    · exact Or.inr ⟨h30, hcc.2 h30⟩
  · intro p hp
    simp only [solo_shares, List.mem_map] at hp
    obtain ⟨s, hs, hps⟩ := hp
    subst hps
    have hce := validate_solos_none E st.number_solo st.solos hv s hs
    have hcc := check_component_none E _ s.secret2 "2" 14
      (check_entry_none E st.number_solo s hce).2
    rcases hcc.1 with h14 | h30
    · exact Or.inl h14
    · exact Or.inr ⟨h30, hcc.2 h30⟩

/-- Witness for c8_shares_amended at the concrete two-device state. -/
theorem c8_witness :
    get_key c8E c8State = finishKey c8E c8State
      (c8E.reconstruct (solo_shares SoloEntry.secret1 c8State.solos) 28)
      (c8E.reconstruct (solo_shares SoloEntry.secret2 c8State.solos) 14) :=
  (c8_shares_amended c8E c8State (by decide) (by decide)).1

/-! ### C10 -/

/-- C10: check_key signals acceptance (loop exit code 2) exactly when the
validation loop over every secret of every device passes, the entered
address passes is_address, and get_key returns a key; each failing check
makes check_key show the corresponding error and return without accepting,
in that order. -/
theorem c10_accept_characterisation (E : Externals) (st : SoloState)
    (oc : CheckOutcome) (st2 : SoloState)
    (h : check_key E st = (oc, st2)) :
    (oc = CheckOutcome.accept ↔
      (validate_solos E st.number_solo st.solos = none ∧
       E.is_address st.address = true ∧
       ∃ k, get_key E st = Except.ok (st2, some k))) ∧
    (∀ err, validate_solos E st.number_solo st.solos = some err →
      oc = CheckOutcome.showError (soloErrorMsg err) ∧ st2 = st) ∧
    (validate_solos E st.number_solo st.solos = none →
      E.is_address st.address = false →
      oc = CheckOutcome.showError invalidAddressMsg ∧ st2 = st) ∧
    (validate_solos E st.number_solo st.solos = none →
      E.is_address st.address = true →
      ∀ st3, get_key E st = Except.ok (st3, none) →
        oc = CheckOutcome.showError mismatchMsg ∧ st2 = st3) := by
  rcases hval : validate_solos E st.number_solo st.solos with _ | err
  · by_cases ha : E.is_address st.address = false
    · simp only [check_key, hval, ha, if_pos, if_true] at h
      obtain ⟨h1, h2⟩ := Prod.mk.injEq .. ▸ h
      refine ⟨?_, ?_, ?_, ?_⟩
      · constructor
        · intro hacc; rw [hacc] at h1; cases h1
        · rintro ⟨_, hat, _⟩; rw [ha] at hat; cases hat
      · intro err heq; cases heq
      · intro _ _; exact ⟨h1.symm, h2.symm⟩
      · intro _ hat; rw [ha] at hat; cases hat
    · have hat : E.is_address st.address = true := by
        cases hx : E.is_address st.address
        · exact absurd hx ha
        · rfl
      rcases hg : get_key E st with e | ⟨st3, r⟩
      · simp only [check_key, hval, hg] at h
        rw [if_neg ha] at h
        obtain ⟨h1, h2⟩ := Prod.mk.injEq .. ▸ h
        refine ⟨?_, ?_, ?_, ?_⟩
        · constructor
          · intro hacc; rw [hacc] at h1; cases h1
          · rintro ⟨_, _, k, hk⟩; cases hk
        · intro err heq; cases heq
        · intro _ hfa; rw [hfa] at hat; cases hat
        · intro _ _ st4 hk; cases hk
      · rcases r with _ | k
        · simp only [check_key, hval, hg] at h
          rw [if_neg ha] at h
          obtain ⟨h1, h2⟩ := Prod.mk.injEq .. ▸ h
          refine ⟨?_, ?_, ?_, ?_⟩
          · constructor
            · intro hacc; rw [hacc] at h1; cases h1
            · rintro ⟨_, _, k, hk⟩
              obtain ⟨_, hk2⟩ := Prod.mk.injEq .. ▸ (Except.ok.inj hk)
              cases hk2
          · intro err heq; cases heq
          · intro _ hfa; rw [hfa] at hat; cases hat
          · intro _ _ st4 hk
            obtain ⟨hk1, _⟩ := Prod.mk.injEq .. ▸ (Except.ok.inj hk)
            exact ⟨h1.symm, h2.symm.trans hk1⟩
        · simp only [check_key, hval, hg] at h
          rw [if_neg ha] at h
          obtain ⟨h1, h2⟩ := Prod.mk.injEq .. ▸ h
          refine ⟨?_, ?_, ?_, ?_⟩
          · constructor
            · intro _; exact ⟨rfl, hat, k, by rw [h2]⟩
            · intro _; exact h1.symm
          · intro err heq; cases heq
          · intro _ hfa; rw [hfa] at hat; cases hat
          · intro _ _ st4 hk
            obtain ⟨_, hk2⟩ := Prod.mk.injEq .. ▸ (Except.ok.inj hk)
            cases hk2
  · simp only [check_key, hval] at h
    obtain ⟨h1, h2⟩ := Prod.mk.injEq .. ▸ h
    refine ⟨?_, ?_, ?_, ?_⟩
    · constructor
      · intro hacc; rw [hacc] at h1; cases h1
      · rintro ⟨hvn, _, _⟩; cases hvn
    · intro err2 heq
      cases Option.some.inj heq
      exact ⟨h1.symm, h2.symm⟩
    · intro hvn; cases hvn
    · intro hvn; cases hvn

/-- A fully valid single-device accepting input: bare lengths 28 and 14 and
a matching address under the Eid externals. -/
def stAcc : SoloState :=
  { number_solo := 1
  , solos := [⟨0, "1111111111111111111111111111", "11111111111111"⟩]
  , address := "addr:" ++ "1111111111111111111111111111" ++ "/" ++ "11111111111111"
  , key := none }

/-- stAcc after check_key accepted. -/
def stAccR : SoloState :=
  { stAcc with key := some ("1111111111111111111111111111" ++ "/" ++ "11111111111111") }

/-- Witness for c10_accept_characterisation at a concrete accepting run. -/
theorem c10_witness :
    validate_solos Eid stAcc.number_solo stAcc.solos = none ∧
    Eid.is_address stAcc.address = true ∧
    ∃ k, get_key Eid stAcc = Except.ok (stAccR, some k) :=
  (c10_accept_characterisation Eid stAcc CheckOutcome.accept stAccR (by decide)).1.mp rfl

/-! ### Lemmas about the dialog transition system -/

lemma check_key_snd_fields (E : Externals) (st : SoloState) :
    ((check_key E st).2).number_solo = st.number_solo ∧
    ((check_key E st).2).solos = st.solos := by
  unfold check_key
  rcases hval : validate_solos E st.number_solo st.solos with _ | err
  · by_cases ha : E.is_address st.address = false
    · simp [ha]
    · rcases hg : get_key E st with e | ⟨st3, r⟩
      · simp [ha, hg]
      · obtain ⟨k, hsh, _⟩ := get_key_ok_shape E st st3 r hg
        rcases r with _ | k2 <;> simp [ha, hg, hsh]
  · simp

/-- The enabled flag never exceeds what on_edit would compute on the current
state. -/
def Inv (g : GuiState) : Prop := g.enabled = true → on_edit_b g.st = true

lemma on_edit_b_congr (st st2 : SoloState)
    (h1 : st.number_solo = st2.number_solo) (h2 : st.solos = st2.solos) :
    on_edit_b st = on_edit_b st2 := by
  unfold on_edit_b
  rw [h1, h2]

lemma inv_gui_step (E : Externals) (g : GuiState) (e : Event) (h : Inv g) :
    Inv (gui_step E g e) := by
  cases e with
  | clickNext =>
    unfold gui_step
    by_cases he : g.enabled
    · simp only [he, if_true]
      intro _
      have hf := check_key_snd_fields E g.st
      rw [on_edit_b_congr (check_key E g.st).2 g.st hf.1 hf.2]
      exact h he
    · simp only [he, if_false]
      exact h
  | setSecret1 i v => exact fun hh => hh
  | setSecret2 i v => exact fun hh => hh
  | setIndex i v => exact fun hh => hh
  | setAddress v => exact fun hh => hh

lemma inv_foldl (E : Externals) (events : List Event) :
    ∀ g : GuiState, Inv g → Inv (events.foldl (gui_step E) g) := by
  induction events with
  | nil => intro g h; exact h
  | cons e es ih =>
    intro g h
    simp only [List.foldl_cons]
    exact ih (gui_step E g e) (inv_gui_step E g e h)

lemma inv_run_events (E : Externals) (n : Nat) (events : List Event) :
    Inv (run_events E n events) :=
  inv_foldl E events (init_gui n) (fun h => by simp [init_gui] at h)

lemma on_edit_loop_true_b (n : Nat) :
    ∀ (l : List SoloEntry) (idx : List Nat) (b : Bool),
      on_edit_loop n l idx b = true → b = true := by
  intro l
  induction l with
  | nil => intro idx b h; exact h
  | cons s rest ih =>
    intro idx b h
    unfold on_edit_loop at h
    split at h
    · have := ih _ _ h
      simp only [Bool.and_eq_true] at this
      exact this.1.1.1
    · have := ih _ _ h
      simp only [Bool.and_eq_true] at this
      exact this.1.1

lemma on_edit_loop_true_base58 (n : Nat) :
    ∀ (l : List SoloEntry) (idx : List Nat) (b : Bool),
      on_edit_loop n l idx b = true →
      ∀ e ∈ l, is_base58 e.secret1 = true ∧ is_base58 e.secret2 = true := by
  intro l
  induction l with
  | nil => intro idx b _ e he; simp at he
  | cons s rest ih =>
    intro idx b h e he
    unfold on_edit_loop at h
    rcases List.mem_cons.mp he with rfl | hmem
    · split at h
      · have := on_edit_loop_true_b n rest _ _ h
        simp only [Bool.and_eq_true] at this
        exact ⟨this.1.1.2, this.1.2⟩
      · have := on_edit_loop_true_b n rest _ _ h
        simp only [Bool.and_eq_true] at this
        exact ⟨this.1.2, this.2⟩
    · split at h
      · exact ih _ _ h e hmem
      · exact ih _ _ h e hmem

lemma on_edit_loop_nodup (n : Nat) (hn : 1 < n) :
    ∀ (l : List SoloEntry) (idx : List Nat) (b : Bool),
      on_edit_loop n l idx b = true →
      (∀ j ∈ idx, j ∉ l.map SoloEntry.cb) ∧ (l.map SoloEntry.cb).Nodup := by
  intro l
  induction l with
  | nil =>
    intro idx b _
    exact ⟨fun j _ => by simp, by simp⟩
  | cons s rest ih =>
    intro idx b h
    unfold on_edit_loop at h
    rw [if_pos hn] at h
    have hb := on_edit_loop_true_b n rest _ _ h
    simp only [Bool.and_eq_true] at hb
    have hmem : s.cb ∉ idx := by
      have := hb.2
      simp only [Bool.not_eq_true'] at this
      simpa using this
    obtain ⟨hdisj, hnodup⟩ := ih (idx ++ [s.cb]) _ h
    constructor
    · intro j hj
      simp only [List.map_cons, List.mem_cons, not_or]
      constructor
      · intro hjs; rw [hjs] at hj; exact hmem hj
      · exact hdisj j (List.mem_append_left _ hj)
    · simp only [List.map_cons, List.nodup_cons]
      exact ⟨hdisj s.cb (List.mem_append_right _ (by simp)), hnodup⟩

/-! ### C7 -/

/-- C7: in any reachable dialog state, clicking next while the button is
disabled runs nothing (check_key, hence reconstruct, is not invoked); and
whenever the button is enabled in multi-device mode, the device indices of
the share lists get_key would hand to reconstruct are pairwise distinct, so
reconstruct is never invoked with duplicate indices. -/
theorem c7_no_duplicate_reconstruct (E : Externals) (n : Nat) (events : List Event)
    (sel : SoloEntry → String) :
    ((run_events E n events).enabled = false →
      gui_step E (run_events E n events) Event.clickNext = run_events E n events) ∧
    ((run_events E n events).enabled = true →
      1 < (run_events E n events).st.number_solo →
      ((solo_shares sel (run_events E n events).st.solos).map Prod.fst).Nodup) := by
  constructor
  · intro hd
    unfold gui_step
    rw [hd]
    simp
  · intro he hn
    have hb := inv_run_events E n events he
    unfold on_edit_b at hb
    have hnd := (on_edit_loop_nodup (run_events E n events).st.number_solo hn
      (run_events E n events).st.solos [] true hb).2
    have hmap : (solo_shares sel (run_events E n events).st.solos).map Prod.fst
        = ((run_events E n events).st.solos.map SoloEntry.cb).map (fun m => m + 1) := by
      simp [solo_shares, List.map_map]
    rw [hmap]
    exact List.Nodup.map (fun a b hab => by omega) hnd

/-- Events producing an enabled two-device state with distinct indices. -/
def c7Events : List Event :=
  [Event.setSecret1 0 "1111111111111111111111111111", Event.setSecret2 0 "11111111111111",
   Event.setSecret1 1 "2222222222222222222222222222", Event.setSecret2 1 "22222222222222"]

/-- Witness for c7_no_duplicate_reconstruct on a concrete event trace. -/
theorem c7_witness :
    ((solo_shares SoloEntry.secret1 (run_events Eid 2 c7Events).st.solos).map Prod.fst).Nodup :=
  (c7_no_duplicate_reconstruct Eid 2 c7Events SoloEntry.secret1).2 (by decide) (by decide)

/-! ### C9 -/

/-- C9: in any reachable dialog state in which some device secret contains a
character outside the base-58 alphabet, the next button is disabled, so
clicking it does nothing: the pipeline never proceeds to key derivation and
verification on such input. (is_base58 is modelled from the spec, the
electrum.bitcoin module being outside the excerpt.) -/
theorem c9_base58_guard (E : Externals) (n : Nat) (events : List Event)
    (e : SoloEntry) (c : Char)
    (hmem : e ∈ (run_events E n events).st.solos)
    (hc : c ∈ e.secret1.toList ∨ c ∈ e.secret2.toList)
    (hout : c ∉ base58_chars) :
    (run_events E n events).enabled = false ∧
    gui_step E (run_events E n events) Event.clickNext = run_events E n events := by
  have hen : (run_events E n events).enabled = false := by
    cases hx : (run_events E n events).enabled
    · rfl
    · exfalso
      have hb := inv_run_events E n events hx
      unfold on_edit_b at hb
      have hbase := on_edit_loop_true_base58 (run_events E n events).st.number_solo
        (run_events E n events).st.solos [] true hb e hmem
      rcases hc with h1 | h2
      · have := hbase.1
        unfold is_base58 at this
        rw [List.all_eq_true] at this
        exact hout (by simpa using this c h1)
      · have := hbase.2
        unfold is_base58 at this
        rw [List.all_eq_true] at this
        exact hout (by simpa using this c h2)
  refine ⟨hen, ?_⟩
  unfold gui_step
  rw [hen]
  simp

/-- A trace entering a secret containing the digit zero, which is not a
base-58 character. -/
def c9Events : List Event := [Event.setSecret1 0 "0"]

/-- Witness for c9_base58_guard on a concrete event trace. -/
theorem c9_witness :
    (run_events Eid 1 c9Events).enabled = false ∧
    gui_step Eid (run_events Eid 1 c9Events) Event.clickNext = run_events Eid 1 c9Events :=
  c9_base58_guard Eid 1 c9Events ⟨0, "0", ""⟩ (Char.ofNat 48)
    (by decide) (Or.inl (by decide)) (by decide)

end SoloVerify
